import Mathlib

/-!
Verification development for the PeachPy object-emission backend
(`peachpy/writer.py`).  The file embeds the writer layer shallowly:

* pure data flowing through the writers (`EncodedFunction`, constant
  symbols, relocations) becomes Lean structures;
* each writer's `add_function` becomes a state-passing function returning
  the mutated writer state together with an optional raised error
  (exceptions abort the enclosing session, whose image is then discarded);
* the `with`-statement session protocol (`__enter__`/`__exit__`) becomes
  explicit functions over the output-file state, the handle state and the
  process-wide `active_writer` slot.

External format libraries (`peachpy.formats.*`) are not part of the
repository sources; where the writers touch them the embedding models
exactly the attribute assignments the writer performs (unassigned
attributes stay `none`), as the spec treats those libraries as opaque.
-/

namespace PeachPy

/-- Errors raised inside the writer layer. `assertionError` is the
precondition failure of `add_function`, `valueError` the configuration
failure of `AssemblyWriter.__init__`, `keyError` a failed `symbol_map`
lookup, `ioError` a failed file operation, and `external` stands for an
arbitrary error raised by the session body. -/
inductive Err where
  | valueError (msg : String)
  | assertionError (msg : String)
  | keyError (name : String)
  | ioError (op : String)
  | external (code : Nat)
deriving DecidableEq, Repr

/-- The assertion message used by every `add_function` (source keeps a typo). -/
def abiMsg : String := "Function must be bindinded to an ABI before its assembly can be used"

/-- `os.linesep`, modelled as a newline. -/
def osLinesep : String := "\n"

/-- Modelled from the spec: `peachpy.__version__`, the version stamp of the
package (the attribute lives outside `writer.py`); only its presence in the
header matters to the claims. -/
def peachpyVersion : String := "0.2.0"

/-- A constant-data symbol of an encoded function: name, offset inside the
function's constant data, and size. -/
structure ConstSymbol where
  name : String
  offset : Nat
  size : Nat
deriving DecidableEq, Repr

/-- A code relocation of an encoded function: offset inside the function's
code, referenced symbol name, and a generic relocation kind (opaque). -/
structure CodeRelocation where
  offset : Nat
  symbol : String
  kind : Nat
deriving DecidableEq, Repr

/-- The result of `function.encode()`: code bytes, constant-data bytes,
constant symbols and code relocations. -/
structure EncodedFunction where
  code_content : List Nat
  const_content : List Nat
  const_symbols : List ConstSymbol
  code_relocations : List CodeRelocation
deriving DecidableEq, Repr

/-- A function value handed to the writers by the code-generation front
end: a name, whether it is ABI-bound (`isinstance(..., ABIFunction)`), the
result of `encode()`, and `format(dialect)` for text output. -/
structure PPFunction where
  name : String
  abi_bound : Bool
  encoded : EncodedFunction
  format : String → String

/-! ## AssemblyWriter (text listings) -/

/-- The `AssemblyWriter` object after a successful `__init__`. -/
structure AssemblyWriter where
  output_path : String
  assembly_format : String
  output_header : String
  comment_prefix : String
deriving DecidableEq, Repr

/-- `os.linesep.join(...)`. -/
def osJoin (sep : String) : List String → String
  | [] => ""
  | [x] => x
  | x :: y :: rest => x ++ sep ++ osJoin sep (y :: rest)

/-- The literal dict `{"go": "//", "nasm": ";", "masm": ";", "gas": "#"}`
of `AssemblyWriter.__init__` (looked up only after the membership check). -/
def commentPrefixDict : List (String × String) :=
  [("go", "//"), ("nasm", ";"), ("masm", ";"), ("gas", "#")]

/-- `AssemblyWriter.__init__`: rejects formats outside
`{"go", "nasm", "masm", "gas"}` with a `ValueError` before any file I/O,
derives the comment prefix and builds the header block. -/
def AssemblyWriter.init (output_path assembly_format : String) (input_path : Option String) :
    Except Err AssemblyWriter :=
  if assembly_format ∈ ["go", "nasm", "masm", "gas"] then
    let comment_prefix := (commentPrefixDict.lookup assembly_format).getD ""
    let banner :=
      match input_path with
      | some ip => comment_prefix ++ (" Generated by PeachPy " ++ (peachpyVersion ++ (" from " ++ ip)))
      | none => comment_prefix ++ (" Generated by PeachPy " ++ peachpyVersion)
    .ok { output_path := output_path, assembly_format := assembly_format,
          output_header := osJoin osLinesep [banner, "", ""], comment_prefix := comment_prefix }
  else
    .error (.valueError ("Unknown assembly format: " ++ assembly_format))

/-- `AssemblyWriter.add_function`, acting on the text written to the output
file so far: assert the function is ABI-bound, then append its formatted
text plus a line separator (and flush). -/
def AssemblyWriter.addF (w : AssemblyWriter) (f : PPFunction) (content : String) :
    String × Option Err :=
  if f.abi_bound then
    (content ++ (f.format w.assembly_format ++ osLinesep), none)
  else
    (content, some (.assertionError abiMsg))

/-! ## ELFWriter -/

/-- ELF symbol binding (`peachpy.formats.elf.symbol.SymbolBinding`);
`local_` renders the source's `SymbolBinding.local`. -/
inductive SymbolBinding where
  | local_
  | global_
deriving DecidableEq, Repr

/-- ELF symbol type (`SymbolType`). -/
inductive SymbolType where
  | data_object
  | function
deriving DecidableEq, Repr

/-- Which section a symbol's `section` attribute points at; `noneRef`
models `self.rodata_section` still being `None` when the attribute is
assigned. -/
inductive SectionRef where
  | textRef
  | rodataRef
  | noneRef
deriving DecidableEq, Repr

/-- Sections registered in an image, in creation order. -/
inductive SectionKind where
  | text
  | rodata
  | relaText
deriving DecidableEq, Repr

/-- An ELF `Symbol` as populated by `ELFWriter.add_function`.  The class
itself is an external format-library type; the embedding records exactly
the attributes the writer assigns, an unassigned numeric attribute staying
`none` (the writer sets `size` on constant symbols but `content_size` on
function symbols). -/
structure ELFSymbol where
  name : String
  value : Nat
  size : Option Nat := none
  content_size : Option Nat := none
  section_ : SectionRef
  binding : SymbolBinding
  type : SymbolType
deriving DecidableEq, Repr

/-- An ELF relocation entry (`RelocationWithAddend`). -/
inductive RelocationType where
  | x86_64_pc32
deriving DecidableEq, Repr

structure RelocationWithAddend where
  type : RelocationType
  offset : Nat
  symbol : ELFSymbol
  addend : Int
deriving DecidableEq, Repr

/-- The mutable state of an `ELFWriter`'s image: text-section bytes, the
lazily created read-only-data section and relocation section, the symbol
table, and the list of sections registered in the image in creation
order. -/
structure ELFState where
  text_content : List Nat
  rodata : Option (List Nat)
  text_rela : Option (List RelocationWithAddend)
  symtab : List ELFSymbol
  sections : List SectionKind
deriving DecidableEq, Repr

/-- `ELFWriter.__init__`: fresh image with one pre-created text section. -/
def ELFWriter.initState : ELFState :=
  { text_content := [], rodata := none, text_rela := none, symtab := [], sections := [.text] }

/-- The constant symbol built for one `const_symbols` entry: local
data-object symbol at `function_rodata_offset + offset` with the entry's
size, attached to the (possibly still absent) rodata section. -/
def mkConstSymbol (ref : SectionRef) (function_rodata_offset : Nat) (cs : ConstSymbol) : ELFSymbol :=
  { name := cs.name, value := function_rodata_offset + cs.offset, size := some cs.size,
    section_ := ref, binding := .local_, type := .data_object }

/-- The per-call `symbol_map` dict: name of each constant symbol maps to
the `Symbol` object just registered (later assignments shadow earlier
ones, so lookup scans the most recent binding first). -/
def buildSymbolMap (ref : SectionRef) (function_rodata_offset : Nat)
    (css : List ConstSymbol) : List (String × ELFSymbol) :=
  css.foldl (fun m cs => (cs.name, mkConstSymbol ref function_rodata_offset cs) :: m) []

/-- The global function symbol appended at the end of
`ELFWriter.add_function`. -/
def elfFunSym (nm : String) (off len : Nat) : ELFSymbol :=
  { name := nm, value := off, content_size := some len,
    section_ := .textRef, binding := .global_, type := .function }

/-- The relocation loop of `ELFWriter.add_function`: each entry is turned
into a `RelocationWithAddend(x86_64_pc32, relocation.offset, symbol_map[...], -4)`;
a missing map entry raises `KeyError`, leaving the entries already appended. -/
def elfRelocLoop (symbol_map : List (String × ELFSymbol)) :
    List CodeRelocation → List RelocationWithAddend → List RelocationWithAddend × Option Err
  | [], acc => (acc, none)
  | rel :: rest, acc =>
    match symbol_map.lookup rel.symbol with
    | none => (acc, some (.keyError rel.symbol))
    | some sym => elfRelocLoop symbol_map rest (acc ++ [⟨.x86_64_pc32, rel.offset, sym, -4⟩])

/-- The constant-data block of `ELFWriter.add_function`: if the encoded
function carries constant bytes, lazily create the rodata section on first
use (registering it in the image) and append the bytes; returns the
updated state together with `function_rodata_offset`, the section's
content size before the append (`0` when the section was just created or
the block was skipped). -/
def elfRodataStep (s : ELFState) (const : List Nat) : ELFState × Nat :=
  if const.isEmpty then (s, 0)
  else
    match s.rodata with
    | none =>
      ({ s with rodata := some const, sections := s.sections ++ [SectionKind.rodata] }, 0)
    | some r =>
      ({ s with rodata := some (r ++ const) }, r.length)

/-- The relocation block of `ELFWriter.add_function`: if the encoded
function carries relocations, lazily create the relocation section on
first use (registering it in the image) and run the relocation loop,
which may raise `KeyError`. -/
def elfRelaStep (s : ELFState) (symbol_map : List (String × ELFSymbol))
    (rels : List CodeRelocation) : ELFState × Option Err :=
  if rels.isEmpty then (s, none)
  else
    let start :=
      match s.text_rela with
      | none => (([] : List RelocationWithAddend), s.sections ++ [SectionKind.relaText])
      | some r => (r, s.sections)
    let looped := elfRelocLoop symbol_map rels start.1
    ({ s with text_rela := some looped.1, sections := start.2 }, looped.2)

/-- `ELFWriter.add_function`.  Returns the mutated image state and the
raised error, if any; on an error the mutations already performed are
kept (the session then aborts and the image is discarded). -/
def elfAdd (f : PPFunction) (s : ELFState) : ELFState × Option Err :=
  if f.abi_bound then
    let ef := f.encoded
    let function_offset := s.text_content.length
    let s1 : ELFState := { s with text_content := s.text_content ++ ef.code_content }
    let rodataStep := elfRodataStep s1 ef.const_content
    let s2 := rodataStep.1
    let function_rodata_offset := rodataStep.2
    let ref : SectionRef := match s2.rodata with | none => .noneRef | some _ => .rodataRef
    let constSyms := ef.const_symbols.map (mkConstSymbol ref function_rodata_offset)
    let symbol_map := buildSymbolMap ref function_rodata_offset ef.const_symbols
    let s3 : ELFState := { s2 with symtab := s2.symtab ++ constSyms }
    let relaStep := elfRelaStep s3 symbol_map ef.code_relocations
    match relaStep.2 with
    | some e => (relaStep.1, some e)
    | none =>
      ({ relaStep.1 with
          symtab := relaStep.1.symtab ++
            [elfFunSym f.name function_offset ef.code_content.length] },
        none)
  else
    (s, some (.assertionError abiMsg))

/-! ## MachOWriter -/

inductive MachODescription where
  | Defined
deriving DecidableEq, Repr

inductive MachOSymbolType where
  | SectionRelative
deriving DecidableEq, Repr

inductive MachOVisibility where
  | External
deriving DecidableEq, Repr

/-- Modelled from the spec: the index the format library assigns to the
pre-created text section (`self.image.text_section.index`). -/
def machoTextSectionIndex : Nat := 1

/-- Modelled from the spec: `self.image.string_table.add(name)` of the
Mach-O format library appends a name and returns an index identifying it. -/
def stringTableAdd (tbl : List String) (s : String) : List String × Nat :=
  (tbl ++ [s], tbl.length)

/-- A Mach-O `Symbol` as populated by `MachOWriter.add_function`; the
writer assigns no size-like attribute, which the embedding records as a
`size` slot left `none`. -/
structure MachOSymbol where
  description : MachODescription
  type : MachOSymbolType
  visibility : MachOVisibility
  string_index : Nat
  section_index : Nat
  value : Nat
  size : Option Nat := none
deriving DecidableEq, Repr

/-- The mutable state of a `MachOWriter`'s image. -/
structure MachOState where
  text_content : List Nat
  string_table : List String
  symbols : List MachOSymbol
  sections : List SectionKind
deriving DecidableEq, Repr

/-- `MachOWriter.__init__`: fresh image (the format library pre-creates
the text section). -/
def MachOWriter.initState : MachOState :=
  { text_content := [], string_table := [], symbols := [], sections := [.text] }

/-- `MachOWriter.add_function`: assert ABI binding, append the code, and
register one externally visible section-relative symbol named with a
leading underscore at the function's text offset.  Constant data,
constant symbols and relocations of the encoded function are not read. -/
def machoAdd (f : PPFunction) (s : MachOState) : MachOState × Option Err :=
  if f.abi_bound then
    let ef := f.encoded
    let function_offset := s.text_content.length
    let added := stringTableAdd s.string_table ("_" ++ f.name)
    ({ text_content := s.text_content ++ ef.code_content,
       string_table := added.1,
       symbols := s.symbols ++
         [{ description := .Defined, type := .SectionRelative, visibility := .External,
            string_index := added.2, section_index := machoTextSectionIndex,
            value := function_offset }],
       sections := s.sections }, none)
  else
    (s, some (.assertionError abiMsg))

/-! ## MSCOFFWriter -/

inductive COFFSymbolType where
  | function
deriving DecidableEq, Repr

inductive COFFStorageClass where
  | external
deriving DecidableEq, Repr

/-- Modelled from the spec: the index of the pre-created `.text` section
(`self.text_section.index`). -/
def mscoffTextSectionIndex : Nat := 1

/-- A COFF `SymbolEntry` as populated by `MSCOFFWriter.add_function`; the
writer assigns no size-like attribute (`size` slot left `none`), and the
symbol's name is passed separately to `image.add_symbol`. -/
structure MSCOFFSymbolEntry where
  value : Nat
  section_index : Nat
  symbol_type : COFFSymbolType
  storage_class : COFFStorageClass
  size : Option Nat := none
deriving DecidableEq, Repr

/-- The mutable state of an `MSCOFFWriter`'s image; symbols are kept with
the name they were registered under. -/
structure MSCOFFState where
  text_content : List Nat
  symbols : List (MSCOFFSymbolEntry × String)
  sections : List SectionKind
deriving DecidableEq, Repr

/-- `MSCOFFWriter.__init__`: fresh image with one pre-created `.text`
section. -/
def MSCOFFWriter.initState : MSCOFFState :=
  { text_content := [], symbols := [], sections := [.text] }

/-- `MSCOFFWriter.add_function`: assert ABI binding, append the code, and
register one external function symbol at the function's text offset.
Constant data, constant symbols and relocations are not read. -/
def mscoffAdd (f : PPFunction) (s : MSCOFFState) : MSCOFFState × Option Err :=
  if f.abi_bound then
    let ef := f.encoded
    let function_offset := s.text_content.length
    ({ text_content := s.text_content ++ ef.code_content,
       symbols := s.symbols ++
         [({ value := function_offset, section_index := mscoffTextSectionIndex,
             symbol_type := .function, storage_class := .external }, f.name)],
       sections := s.sections }, none)
  else
    (s, some (.assertionError abiMsg))

/-! ## Session protocol

The `with`-statement body performs the `add_function` calls in order and
may additionally raise an external error after them; the first raised
error aborts the body (later calls are not made) and is handed to
`__exit__`'s `exc_type`/`exc_value`. -/

/-- Run the body's `add_function` calls in order, stopping at the first
raised error and keeping the state mutated so far. -/
def runAdds {σ : Type} (step : PPFunction → σ → σ × Option Err) :
    List PPFunction → σ → σ × Option Err
  | [], s => (s, none)
  | f :: rest, s =>
    match step f s with
    | (s1, none) => runAdds step rest s1
    | (s1, some e) => (s1, some e)

/-- The whole session body: the `add_function` calls followed, if they all
succeed, by an optional external error raised by the rest of the body. -/
def bodyRun {σ : Type} (step : PPFunction → σ → σ × Option Err)
    (fns : List PPFunction) (s0 : σ) (externalErr : Option Err) : σ × Option Err :=
  match runAdds step fns s0 with
  | (s, none) => (s, externalErr)
  | (s, some e) => (s, some e)

/-- State of the output-file handle at the end of a session.  `dropped`
records `self.output_file = None` executed on a handle that was never
closed: the writer discards its reference without calling `close()`. -/
inductive HandleState where
  | notOpened
  | openH
  | closed
  | dropped
deriving DecidableEq, Repr

/-- Observable file/handle actions performed by `__exit__`, in order. -/
inductive FileEvent where
  | writeImage
  | closeHandle
  | unlinkFile
  | dropHandleRef
deriving DecidableEq, Repr

/-- Outcome of a whole writer session: the error propagated to the caller,
the content at the output path afterwards (`none` = the path does not
exist), the final handle state, and the ordered `__exit__` actions. -/
structure ExitResult (α : Type) where
  propagated : Option Err
  file : Option α
  handle : HandleState
  events : List FileEvent
deriving DecidableEq, Repr

/-- `AssemblyWriter.__exit__`: on success close the handle (the content,
header plus blocks, is already on disk); on failure `os.unlink` the output
file, drop the handle reference without closing it, and re-raise. -/
def textExit (content : String) (exc : Option Err) : ExitResult String :=
  match exc with
  | none => ⟨none, some content, .closed, [.closeHandle]⟩
  | some e => ⟨some e, none, .dropped, [.unlinkFile, .dropHandleRef]⟩

/-- The `__exit__` shared by `ELFWriter`, `MachOWriter` and
`MSCOFFWriter`: on success write `image.as_bytearray` and close; on
failure `os.unlink` the output file, drop the handle reference without
closing it, and re-raise. -/
def binaryExit (imageBytes : List Nat) (exc : Option Err) : ExitResult (List Nat) :=
  match exc with
  | none => ⟨none, some imageBytes, .closed, [.writeImage, .closeHandle]⟩
  | some e => ⟨some e, none, .dropped, [.unlinkFile, .dropHandleRef]⟩

/-- A full `AssemblyWriter` session (after a successful `__enter__`, which
created/truncated the file and wrote the header). -/
def assemblySession (w : AssemblyWriter) (fns : List PPFunction) (externalErr : Option Err) :
    ExitResult String :=
  let body := bodyRun w.addF fns w.output_header externalErr
  textExit body.1 body.2

/-- A full `ELFWriter` session; `serialize` stands for the format
library's `Image.as_bytearray` serialization of the in-memory image. -/
def elfSession (fns : List PPFunction) (externalErr : Option Err)
    (serialize : ELFState → List Nat) : ExitResult (List Nat) :=
  let body := bodyRun elfAdd fns ELFWriter.initState externalErr
  binaryExit (serialize body.1) body.2

/-- A full `MachOWriter` session. -/
def machoSession (fns : List PPFunction) (externalErr : Option Err)
    (serialize : MachOState → List Nat) : ExitResult (List Nat) :=
  let body := bodyRun machoAdd fns MachOWriter.initState externalErr
  binaryExit (serialize body.1) body.2

/-- A full `MSCOFFWriter` session. -/
def mscoffSession (fns : List PPFunction) (externalErr : Option Err)
    (serialize : MSCOFFState → List Nat) : ExitResult (List Nat) :=
  let body := bodyRun mscoffAdd fns MSCOFFWriter.initState externalErr
  binaryExit (serialize body.1) body.2

/-- The text-writer program as a whole: construct, then run the session;
a construction failure happens before any file I/O, so the output path is
untouched and the handle never opened. -/
def assemblyProgram (path fmt : String) (ip : Option String)
    (fns : List PPFunction) (externalErr : Option Err) : ExitResult String :=
  match AssemblyWriter.init path fmt ip with
  | .error e => ⟨some e, none, .notOpened, []⟩
  | .ok w => assemblySession w fns externalErr

/-! ## The process-wide `active_writer` slot

All five writer classes manipulate the global slot identically:
`__enter__` saves the current value into `self.previous_writer` and
installs the new writer (`None` for `NullWriter`) before opening the
output file; `__exit__` restores the saved value as its first action,
before any close logic runs.  Writers are identified by numeric ids;
the slot holds `none` when no writer is active. -/

inductive WriterKind where
  | assembly
  | elf
  | macho
  | mscoff
  | null
deriving DecidableEq, Repr

/-- The value `__enter__` installs in `active_writer`: the writer itself,
except that `NullWriter.__enter__` installs `None`. -/
def installValue (k : WriterKind) (wid : Nat) : Option Nat :=
  match k with
  | .null => none
  | _ => some wid

/-- The save-and-install prefix of every `__enter__`: returns the saved
`previous_writer` and the slot value after installation. -/
def enterInstall (k : WriterKind) (wid : Nat) (active : Option Nat) :
    Option Nat × Option Nat :=
  (active, installValue k wid)

/-- A whole `__enter__`: save and install, then (for file-backed writers)
open the output file, which may fail.  Returns (saved previous writer,
active slot afterwards, raised error).  When the open fails the
`with`-statement never runs `__exit__`, so the slot stays as installed. -/
def writerEnter (k : WriterKind) (wid : Nat) (openFails : Bool) (active : Option Nat) :
    Option Nat × Option Nat × Option Err :=
  let saved := (enterInstall k wid active).1
  let installed := (enterInstall k wid active).2
  match k, openFails with
  | .null, _ => (saved, installed, none)
  | _, true => (saved, installed, some (.ioError "open"))
  | _, false => (saved, installed, none)

/-- A whole `__exit__` as seen by the slot: the restore of
`previous_writer` is the first statement and is unconditional, so the slot
ends at the saved value whatever the body outcome (`exc`) and even when
the close logic itself fails (`closeErr`); the propagated error is the
body's error if any, else the close step's. -/
def writerExit (savedPrev : Option Nat) (exc : Option Err) (closeErr : Option Err) :
    Option Nat × Option Err :=
  (savedPrev, match exc with | some e => some e | none => closeErr)

/-! ## Derived notions used to state the claims -/

/-- A symbol-table entry is a global function symbol when its binding is
`global_` (the writers set `binding = global_` exactly on the per-function
symbols). -/
def isGlobalFun (y : ELFSymbol) : Bool := y.binding == SymbolBinding.global_

/-- The code lengths of a list of functions. -/
def codeLens (fns : List PPFunction) : List Nat :=
  fns.map fun f => f.encoded.code_content.length

/-- The claim's expected `(value, size)` pair per function: the i-th
function's symbol value is the sum of the code lengths of the previously
added functions and its size is its own code length. -/
def claimedValueSize (fns : List PPFunction) : List (Nat × Nat) :=
  (List.range fns.length).map fun i =>
    (((codeLens fns).take i).sum, (codeLens fns).getD i 0)

/-- Recursive form of `claimedValueSize`, generalized over a base text
offset; used by the inductions. -/
def claimedVSFrom (base : Nat) : List PPFunction → List (Nat × Nat)
  | [] => []
  | f :: rest =>
    (base, f.encoded.code_content.length) ::
      claimedVSFrom (base + f.encoded.code_content.length) rest

/-- The concatenation of the code bytes of a list of functions. -/
def concatCode (fns : List PPFunction) : List Nat :=
  (fns.map fun f => f.encoded.code_content).flatten

/-- The concatenation of the constant bytes of a list of functions. -/
def concatConst (fns : List PPFunction) : List Nat :=
  (fns.map fun f => f.encoded.const_content).flatten

/-- Whether some function in the list supplies constant data. -/
def anyConst (fns : List PPFunction) : Bool :=
  fns.any fun f => !f.encoded.const_content.isEmpty

/-- Whether some function in the list supplies relocations. -/
def anyRelocs (fns : List PPFunction) : Bool :=
  fns.any fun f => !f.encoded.code_relocations.isEmpty

/-- The function symbols the ELF writer is expected to append, starting
from a given text offset. -/
def elfGlobalsFrom (base : Nat) : List PPFunction → List ELFSymbol
  | [] => []
  | f :: rest =>
    elfFunSym f.name base f.encoded.code_content.length ::
      elfGlobalsFrom (base + f.encoded.code_content.length) rest

/-- The text blocks the assembly writer appends after the header. -/
def joinBlocks (fmt : String) : List PPFunction → String
  | [] => ""
  | f :: rest => (f.format fmt ++ osLinesep) ++ joinBlocks fmt rest

/-- Every relocation entry the ELF writer ever emits has relocation type
`x86_64_pc32` and addend `-4`. -/
def relaInv (s : ELFState) : Prop :=
  ∀ r ∈ s.text_rela.getD [], r.type = RelocationType.x86_64_pc32 ∧ r.addend = -4

/-- The observable fields of a Mach-O symbol the claims talk about. -/
def machoProj (y : MachOSymbol) : Nat × Option Nat × MachOVisibility :=
  (y.value, y.size, y.visibility)

/-- The observable fields of a COFF symbol the claims talk about. -/
def mscoffProj (y : MSCOFFSymbolEntry × String) :
    Nat × Option Nat × COFFStorageClass × COFFSymbolType :=
  (y.1.value, y.1.size, y.1.storage_class, y.1.symbol_type)

/-- Overwrite every relocation kind of a function's encoding with `k`. -/
def setRelocKinds (k : Nat) (f : PPFunction) : PPFunction :=
  { f with encoded := { f.encoded with
      code_relocations := f.encoded.code_relocations.map (fun r => { r with kind := k }) } }

/-- Is an (optional) error the `add_function` precondition failure? -/
def isPrecondErr : Option Err → Bool
  | some (.assertionError _) => true
  | _ => false

/-- Sample function `f` of the spec's §8 scenario: 16 code bytes, no
constant data, no relocations. -/
def exF : PPFunction :=
  { name := "f", abi_bound := true,
    encoded := { code_content := List.replicate 16 144, const_content := [],
                 const_symbols := [], code_relocations := [] },
    format := fun _ => "f:" }

/-- Sample function `g` of the spec's §8 scenario: 8 code bytes, 4 bytes
of constant data, one constant symbol `g_const` (offset 0, size 4) and one
relocation at code offset 2 referencing it. -/
def exG : PPFunction :=
  { name := "g", abi_bound := true,
    encoded := { code_content := List.replicate 8 1, const_content := [1, 2, 3, 4],
                 const_symbols := [{ name := "g_const", offset := 0, size := 4 }],
                 code_relocations := [{ offset := 2, symbol := "g_const", kind := 7 }] },
    format := fun _ => "g:" }

/-- A function that was never bound to an ABI. -/
def exU : PPFunction :=
  { name := "u", abi_bound := false,
    encoded := { code_content := [0], const_content := [],
                 const_symbols := [], code_relocations := [] },
    format := fun _ => "u:" }

/-- A concrete `AssemblyWriter` as produced by `__init__` for the `gas`
dialect (the fallback record is never used: the construction succeeds). -/
def wGas : AssemblyWriter :=
  ((AssemblyWriter.init "out.s" "gas" none).toOption).getD
    { output_path := "", assembly_format := "", output_header := "", comment_prefix := "" }

/-! ## Helper lemmas -/

theorem runAdds_cons {σ : Type} (step : PPFunction → σ → σ × Option Err)
    (f : PPFunction) (rest : List PPFunction) (s s1 : σ) (e : Option Err)
    (h : step f s = (s1, e)) :
    runAdds step (f :: rest) s =
      (match e with
       | none => runAdds step rest s1
       | some err => (s1, some err)) := by
  cases e <;> simp only [runAdds, h]

theorem elfRodataStep_spec (s : ELFState) (const : List Nat) :
    (elfRodataStep s const).1.text_content = s.text_content ∧
    (elfRodataStep s const).1.symtab = s.symtab ∧
    (elfRodataStep s const).1.text_rela = s.text_rela ∧
    (elfRodataStep s const).1.rodata.getD [] = s.rodata.getD [] ++ const ∧
    (elfRodataStep s const).1.rodata.isSome = (s.rodata.isSome || !const.isEmpty) ∧
    (elfRodataStep s const).1.sections.count SectionKind.rodata =
      s.sections.count SectionKind.rodata +
        (if !const.isEmpty && s.rodata.isNone then 1 else 0) ∧
    (elfRodataStep s const).1.sections.count SectionKind.relaText =
      s.sections.count SectionKind.relaText := by
  cases hc : const.isEmpty <;> cases hr : s.rodata <;>
    simp_all [elfRodataStep, List.isEmpty_iff, List.count_append, List.count_cons]

theorem elfRelaStep_spec (s : ELFState) (sm : List (String × ELFSymbol))
    (rels : List CodeRelocation) :
    (elfRelaStep s sm rels).1.text_content = s.text_content ∧
    (elfRelaStep s sm rels).1.symtab = s.symtab ∧
    (elfRelaStep s sm rels).1.rodata = s.rodata ∧
    (elfRelaStep s sm rels).1.sections.count SectionKind.rodata =
      s.sections.count SectionKind.rodata ∧
    (elfRelaStep s sm rels).1.sections.count SectionKind.relaText =
      s.sections.count SectionKind.relaText +
        (if !rels.isEmpty && s.text_rela.isNone then 1 else 0) ∧
    (elfRelaStep s sm rels).1.text_rela.isSome = (s.text_rela.isSome || !rels.isEmpty) := by
  cases hc : rels.isEmpty <;> cases hr : s.text_rela <;>
    simp_all [elfRelaStep, List.count_append, List.count_cons]

theorem elfRodataStep_text (s : ELFState) (c : List Nat) :
    (elfRodataStep s c).1.text_content = s.text_content := (elfRodataStep_spec s c).1

theorem elfRodataStep_symtab (s : ELFState) (c : List Nat) :
    (elfRodataStep s c).1.symtab = s.symtab := (elfRodataStep_spec s c).2.1

theorem elfRodataStep_rela (s : ELFState) (c : List Nat) :
    (elfRodataStep s c).1.text_rela = s.text_rela := (elfRodataStep_spec s c).2.2.1

theorem elfRodataStep_rodata_getD (s : ELFState) (c : List Nat) :
    (elfRodataStep s c).1.rodata.getD [] = s.rodata.getD [] ++ c :=
  (elfRodataStep_spec s c).2.2.2.1

theorem elfRodataStep_rodata_isSome (s : ELFState) (c : List Nat) :
    (elfRodataStep s c).1.rodata.isSome = (s.rodata.isSome || !c.isEmpty) :=
  (elfRodataStep_spec s c).2.2.2.2.1

theorem elfRodataStep_count_rodata (s : ELFState) (c : List Nat) :
    (elfRodataStep s c).1.sections.count SectionKind.rodata =
      s.sections.count SectionKind.rodata + (if !c.isEmpty && s.rodata.isNone then 1 else 0) :=
  (elfRodataStep_spec s c).2.2.2.2.2.1

theorem elfRodataStep_count_rela (s : ELFState) (c : List Nat) :
    (elfRodataStep s c).1.sections.count SectionKind.relaText =
      s.sections.count SectionKind.relaText :=
  (elfRodataStep_spec s c).2.2.2.2.2.2

theorem elfRelaStep_text (s : ELFState) (sm : List (String × ELFSymbol))
    (rels : List CodeRelocation) :
    (elfRelaStep s sm rels).1.text_content = s.text_content := (elfRelaStep_spec s sm rels).1

theorem elfRelaStep_symtab (s : ELFState) (sm : List (String × ELFSymbol))
    (rels : List CodeRelocation) :
    (elfRelaStep s sm rels).1.symtab = s.symtab := (elfRelaStep_spec s sm rels).2.1

theorem elfRelaStep_rodata (s : ELFState) (sm : List (String × ELFSymbol))
    (rels : List CodeRelocation) :
    (elfRelaStep s sm rels).1.rodata = s.rodata := (elfRelaStep_spec s sm rels).2.2.1

theorem elfRelaStep_count_rodata (s : ELFState) (sm : List (String × ELFSymbol))
    (rels : List CodeRelocation) :
    (elfRelaStep s sm rels).1.sections.count SectionKind.rodata =
      s.sections.count SectionKind.rodata := (elfRelaStep_spec s sm rels).2.2.2.1

theorem elfRelaStep_count_rela (s : ELFState) (sm : List (String × ELFSymbol))
    (rels : List CodeRelocation) :
    (elfRelaStep s sm rels).1.sections.count SectionKind.relaText =
      s.sections.count SectionKind.relaText +
        (if !rels.isEmpty && s.text_rela.isNone then 1 else 0) :=
  (elfRelaStep_spec s sm rels).2.2.2.2.1

theorem elfRelaStep_rela_isSome (s : ELFState) (sm : List (String × ELFSymbol))
    (rels : List CodeRelocation) :
    (elfRelaStep s sm rels).1.text_rela.isSome = (s.text_rela.isSome || !rels.isEmpty) :=
  (elfRelaStep_spec s sm rels).2.2.2.2.2

theorem isGlobalFun_elfFunSym (nm : String) (off len : Nat) :
    isGlobalFun (elfFunSym nm off len) = true := rfl

theorem isGlobalFun_mkConstSymbol (ref : SectionRef) (off : Nat) (cs : ConstSymbol) :
    isGlobalFun (mkConstSymbol ref off cs) = false := rfl

theorem filter_mkConstSymbol (ref : SectionRef) (off : Nat) (css : List ConstSymbol) :
    (css.map (mkConstSymbol ref off)).filter isGlobalFun = [] := by
  induction css with
  | nil => rfl
  | cons c rest ih => simp [isGlobalFun_mkConstSymbol, ih]

theorem elfAdd_success (f : PPFunction) (s s1 : ELFState)
    (h : elfAdd f s = (s1, none)) :
    f.abi_bound = true ∧
    s1.text_content = s.text_content ++ f.encoded.code_content ∧
    s1.rodata.getD [] = s.rodata.getD [] ++ f.encoded.const_content ∧
    s1.rodata.isSome = (s.rodata.isSome || !f.encoded.const_content.isEmpty) ∧
    s1.sections.count SectionKind.rodata =
      s.sections.count SectionKind.rodata +
        (if !f.encoded.const_content.isEmpty && s.rodata.isNone then 1 else 0) ∧
    s1.sections.count SectionKind.relaText =
      s.sections.count SectionKind.relaText +
        (if !f.encoded.code_relocations.isEmpty && s.text_rela.isNone then 1 else 0) ∧
    s1.text_rela.isSome = (s.text_rela.isSome || !f.encoded.code_relocations.isEmpty) ∧
    s1.symtab.filter isGlobalFun = s.symtab.filter isGlobalFun ++
      [elfFunSym f.name s.text_content.length f.encoded.code_content.length] := by
  cases hb : f.abi_bound with
  | false => simp [elfAdd, hb] at h
  | true =>
    simp only [elfAdd] at h
    rw [if_pos hb] at h
    split at h
    · simp at h
    · injection h with h1 h2
      subst h1
      refine ⟨rfl, ?_, ?_, ?_, ?_, ?_, ?_, ?_⟩
      · simp [elfRelaStep_text, elfRodataStep_text]
      · simp [elfRelaStep_rodata, elfRodataStep_rodata_getD]
      · simp [elfRelaStep_rodata, elfRodataStep_rodata_isSome]
      · simp [elfRelaStep_count_rodata, elfRodataStep_count_rodata]
      · simp [elfRelaStep_count_rela, elfRodataStep_count_rela, elfRodataStep_rela]
      · simp [elfRelaStep_rela_isSome, elfRodataStep_rela]
      · simp [elfRelaStep_symtab, elfRodataStep_symtab, List.filter_append,
          filter_mkConstSymbol, isGlobalFun_elfFunSym]

theorem count_if_merge (n : Nat) (a b c : Bool) :
    (n + if a && !b then 1 else 0) + (if c && !(b || a) then 1 else 0) =
      n + (if (a || c) && !b then 1 else 0) := by
  cases a <;> cases b <;> cases c <;> simp

theorem elf_run_spec (fns : List PPFunction) : ∀ s0 s : ELFState,
    runAdds elfAdd fns s0 = (s, none) →
    s.text_content = s0.text_content ++ concatCode fns ∧
    s.rodata.getD [] = s0.rodata.getD [] ++ concatConst fns ∧
    s.rodata.isSome = (s0.rodata.isSome || anyConst fns) ∧
    s.sections.count SectionKind.rodata =
      s0.sections.count SectionKind.rodata +
        (if anyConst fns && s0.rodata.isNone then 1 else 0) ∧
    s.sections.count SectionKind.relaText =
      s0.sections.count SectionKind.relaText +
        (if anyRelocs fns && s0.text_rela.isNone then 1 else 0) ∧
    s.text_rela.isSome = (s0.text_rela.isSome || anyRelocs fns) ∧
    s.symtab.filter isGlobalFun =
      s0.symtab.filter isGlobalFun ++ elfGlobalsFrom s0.text_content.length fns := by
  induction fns with
  | nil =>
    intro s0 s h
    simp only [runAdds, Prod.mk.injEq] at h
    obtain ⟨rfl, -⟩ := h
    simp [concatCode, concatConst, anyConst, anyRelocs, elfGlobalsFrom]
  | cons f rest ih =>
    intro s0 s h
    rcases hstep : elfAdd f s0 with ⟨s1, e⟩
    rw [runAdds_cons _ _ _ _ _ _ hstep] at h
    cases e with
    | some err => simp at h
    | none =>
      obtain ⟨hb, ht, hgd, his, hc1, hc2, hri, hsym⟩ := elfAdd_success f s0 s1 hstep
      obtain ⟨it, igd, iis, ic1, ic2, iri, isym⟩ := ih s1 s h
      have hn1 : s1.rodata.isNone = !(s0.rodata.isSome || !f.encoded.const_content.isEmpty) := by
        rw [← his]; cases s1.rodata <;> rfl
      have hn2 : s1.text_rela.isNone = !(s0.text_rela.isSome || !f.encoded.code_relocations.isEmpty) := by
        rw [← hri]; cases s1.text_rela <;> rfl
      refine ⟨?_, ?_, ?_, ?_, ?_, ?_, ?_⟩
      · rw [it, ht]; simp [concatCode, List.append_assoc]
      · rw [igd, hgd]; simp [concatConst, List.append_assoc]
      · rw [iis, his]; simp [anyConst, Bool.or_assoc]
      · have hn0 : s0.rodata.isNone = !s0.rodata.isSome := by cases s0.rodata <;> rfl
        rw [ic1, hc1, hn1, hn0]
        simp only [anyConst, List.any_cons]
        exact count_if_merge _ _ _ _
      · have hn0 : s0.text_rela.isNone = !s0.text_rela.isSome := by cases s0.text_rela <;> rfl
        rw [ic2, hc2, hn2, hn0]
        simp only [anyRelocs, List.any_cons]
        exact count_if_merge _ _ _ _
      · rw [iri, hri]; simp [anyRelocs, Bool.or_assoc]
      · rw [isym, hsym]
        have hlen : s1.text_content.length = s0.text_content.length + f.encoded.code_content.length := by
          rw [ht]; simp
        rw [hlen]
        simp [elfGlobalsFrom, List.append_assoc]

theorem claimedVSFrom_eq (fns : List PPFunction) : ∀ base : Nat,
    claimedVSFrom base fns =
      (List.range fns.length).map
        (fun i => (base + ((codeLens fns).take i).sum, (codeLens fns).getD i 0)) := by
  induction fns with
  | nil => intro base; simp [claimedVSFrom]
  | cons f rest ih =>
    intro base
    rw [claimedVSFrom, ih (base + f.encoded.code_content.length)]
    simp only [codeLens, List.map_cons, List.length_cons, List.range_succ_eq_map,
      List.map_map]
    refine List.cons_eq_cons.mpr ⟨by simp, ?_⟩
    refine List.map_congr_left ?_
    intro i _
    simp [codeLens, Function.comp, Nat.add_assoc, Nat.succ_eq_add_one]

theorem claimedValueSize_eq_from (fns : List PPFunction) :
    claimedValueSize fns = claimedVSFrom 0 fns := by
  rw [claimedVSFrom_eq]
  simp [claimedValueSize]

theorem elfGlobalsFrom_map (fns : List PPFunction) : ∀ base : Nat,
    (elfGlobalsFrom base fns).map (fun y => (y.value, y.content_size)) =
      (claimedVSFrom base fns).map (fun p => (p.1, some p.2)) := by
  induction fns with
  | nil => intro base; rfl
  | cons f rest ih =>
    intro base
    simp [elfGlobalsFrom, claimedVSFrom, elfFunSym, ih]

/-! ### Mach-O and COFF run lemmas -/


theorem machoAdd_sections (f : PPFunction) (s : MachOState) :
    (machoAdd f s).1.sections = s.sections := by
  cases hb : f.abi_bound <;> simp [machoAdd, hb]

theorem mscoffAdd_sections (f : PPFunction) (s : MSCOFFState) :
    (mscoffAdd f s).1.sections = s.sections := by
  cases hb : f.abi_bound <;> simp [mscoffAdd, hb]

theorem macho_runAdds_sections (fns : List PPFunction) : ∀ s0 : MachOState,
    (runAdds machoAdd fns s0).1.sections = s0.sections := by
  induction fns with
  | nil => intro s0; rfl
  | cons f rest ih =>
    intro s0
    rcases hstep : machoAdd f s0 with ⟨s1, e⟩
    rw [runAdds_cons _ _ _ _ _ _ hstep]
    have hs : s1.sections = s0.sections := by
      have := machoAdd_sections f s0
      rw [hstep] at this
      exact this
    cases e with
    | none => rw [ih s1, hs]
    | some err => exact hs

theorem mscoff_runAdds_sections (fns : List PPFunction) : ∀ s0 : MSCOFFState,
    (runAdds mscoffAdd fns s0).1.sections = s0.sections := by
  induction fns with
  | nil => intro s0; rfl
  | cons f rest ih =>
    intro s0
    rcases hstep : mscoffAdd f s0 with ⟨s1, e⟩
    rw [runAdds_cons _ _ _ _ _ _ hstep]
    have hs : s1.sections = s0.sections := by
      have := mscoffAdd_sections f s0
      rw [hstep] at this
      exact this
    cases e with
    | none => rw [ih s1, hs]
    | some err => exact hs

theorem macho_run_spec (fns : List PPFunction) : ∀ s0 s : MachOState,
    runAdds machoAdd fns s0 = (s, none) →
    s.text_content = s0.text_content ++ concatCode fns ∧
    s.symbols.map machoProj = s0.symbols.map machoProj ++
      (claimedVSFrom s0.text_content.length fns).map
        (fun p => (p.1, (none : Option Nat), MachOVisibility.External)) := by
  induction fns with
  | nil =>
    intro s0 s h
    simp only [runAdds, Prod.mk.injEq] at h
    obtain ⟨rfl, -⟩ := h
    simp [concatCode, claimedVSFrom]
  | cons f rest ih =>
    intro s0 s h
    rcases hstep : machoAdd f s0 with ⟨s1, e⟩
    rw [runAdds_cons _ _ _ _ _ _ hstep] at h
    cases e with
    | some err => simp at h
    | none =>
      cases hb : f.abi_bound with
      | false => simp [machoAdd, hb] at hstep
      | true =>
        simp only [machoAdd, hb, if_true] at hstep
        injection hstep with h1 h2
        obtain ⟨it, isym⟩ := ih s1 s h
        subst h1
        refine ⟨?_, ?_⟩
        · rw [it]; simp [concatCode, List.append_assoc]
        · rw [isym]
          simp [machoProj, claimedVSFrom, stringTableAdd, List.append_assoc]

theorem mscoff_run_spec (fns : List PPFunction) : ∀ s0 s : MSCOFFState,
    runAdds mscoffAdd fns s0 = (s, none) →
    s.text_content = s0.text_content ++ concatCode fns ∧
    s.symbols.map mscoffProj = s0.symbols.map mscoffProj ++
      (claimedVSFrom s0.text_content.length fns).map
        (fun p => (p.1, (none : Option Nat), COFFStorageClass.external, COFFSymbolType.function)) := by
  induction fns with
  | nil =>
    intro s0 s h
    simp only [runAdds, Prod.mk.injEq] at h
    obtain ⟨rfl, -⟩ := h
    simp [concatCode, claimedVSFrom]
  | cons f rest ih =>
    intro s0 s h
    rcases hstep : mscoffAdd f s0 with ⟨s1, e⟩
    rw [runAdds_cons _ _ _ _ _ _ hstep] at h
    cases e with
    | some err => simp at h
    | none =>
      cases hb : f.abi_bound with
      | false => simp [mscoffAdd, hb] at hstep
      | true =>
        simp only [mscoffAdd, hb, if_true] at hstep
        injection hstep with h1 h2
        obtain ⟨it, isym⟩ := ih s1 s h
        subst h1
        refine ⟨?_, ?_⟩
        · rw [it]; simp [concatCode, List.append_assoc]
        · rw [isym]
          simp [mscoffProj, claimedVSFrom, List.append_assoc]

/-! ### Relocation-shape lemmas -/

theorem elfRelocLoop_mem (sm : List (String × ELFSymbol)) (rels : List CodeRelocation) :
    ∀ (acc : List RelocationWithAddend) (r : RelocationWithAddend),
      r ∈ (elfRelocLoop sm rels acc).1 →
      r ∈ acc ∨ (r.type = RelocationType.x86_64_pc32 ∧ r.addend = -4) := by
  induction rels with
  | nil => intro acc r h; exact Or.inl h
  | cons rel rest ih =>
    intro acc r h
    simp only [elfRelocLoop] at h
    cases hl : sm.lookup rel.symbol with
    | none => rw [hl] at h; exact Or.inl h
    | some sym =>
      rw [hl] at h
      rcases ih (acc ++ [⟨.x86_64_pc32, rel.offset, sym, -4⟩]) r h with hmem | hprop
      · rcases List.mem_append.mp hmem with h1 | h2
        · exact Or.inl h1
        · right
          rcases List.mem_singleton.mp h2 with rfl
          exact ⟨rfl, rfl⟩
      · exact Or.inr hprop

theorem relaInv_congr (s1 s2 : ELFState) (h : s1.text_rela = s2.text_rela)
    (hs : relaInv s2) : relaInv s1 := by
  intro r hr
  rw [h] at hr
  exact hs r hr

theorem relaInv_elfRelaStep (s : ELFState) (sm : List (String × ELFSymbol))
    (rels : List CodeRelocation) (hs : relaInv s) : relaInv (elfRelaStep s sm rels).1 := by
  cases hc : rels.isEmpty with
  | true => exact relaInv_congr _ s (by simp [elfRelaStep, hc]) hs
  | false =>
    intro r hr
    cases ht : s.text_rela with
    | none =>
      simp only [elfRelaStep, hc, ht, Bool.false_eq_true, if_false, Option.getD_some] at hr
      rcases elfRelocLoop_mem sm rels _ r hr with hmem | hprop
      · simp at hmem
      · exact hprop
    | some r0 =>
      simp only [elfRelaStep, hc, ht, Bool.false_eq_true, if_false, Option.getD_some] at hr
      rcases elfRelocLoop_mem sm rels _ r hr with hmem | hprop
      · exact hs r (by rw [ht]; exact hmem)
      · exact hprop

theorem relaInv_elfAdd (f : PPFunction) (s : ELFState) (hs : relaInv s) :
    relaInv (elfAdd f s).1 := by
  cases hb : f.abi_bound with
  | false =>
    have : (elfAdd f s).1 = s := by simp [elfAdd, hb]
    rw [this]; exact hs
  | true =>
    simp only [elfAdd]
    rw [if_pos hb]
    have hstep : relaInv (elfRodataStep
        { s with text_content := s.text_content ++ f.encoded.code_content }
        f.encoded.const_content).1 :=
      relaInv_congr _ s (by rw [elfRodataStep_rela]) hs
    split
    · next heq =>
      exact relaInv_elfRelaStep _ _ _ (relaInv_congr _ _ rfl hstep)
    · next heq =>
      exact relaInv_congr _ _ rfl (relaInv_elfRelaStep _ _ _ (relaInv_congr _ _ rfl hstep))

theorem relaInv_runAdds (fns : List PPFunction) : ∀ s0 : ELFState,
    relaInv s0 → relaInv (runAdds elfAdd fns s0).1 := by
  induction fns with
  | nil => intro s0 hs; exact hs
  | cons f rest ih =>
    intro s0 hs
    rcases hstep : elfAdd f s0 with ⟨s1, e⟩
    rw [runAdds_cons _ _ _ _ _ _ hstep]
    have hs1 : relaInv s1 := by
      have := relaInv_elfAdd f s0 hs
      rw [hstep] at this
      exact this
    cases e with
    | none => exact ih s1 hs1
    | some err => exact hs1

/-! ### The generic relocation kind is never read -/


theorem elfRelocLoop_kind_invariant (sm : List (String × ELFSymbol)) (k : Nat)
    (rels : List CodeRelocation) : ∀ acc,
    elfRelocLoop sm (rels.map fun r => { r with kind := k }) acc = elfRelocLoop sm rels acc := by
  induction rels with
  | nil => intro acc; rfl
  | cons rel rest ih =>
    intro acc
    simp only [List.map_cons, elfRelocLoop]
    cases hl : sm.lookup rel.symbol <;> simp [hl, ih]

theorem elfRelaStep_kind_invariant (s : ELFState) (sm : List (String × ELFSymbol))
    (k : Nat) (rels : List CodeRelocation) :
    elfRelaStep s sm (rels.map fun r => { r with kind := k }) = elfRelaStep s sm rels := by
  have hE : (rels.map fun r => { r with kind := k }).isEmpty = rels.isEmpty := by
    cases rels <;> rfl
  unfold elfRelaStep
  rw [hE]
  simp only [elfRelocLoop_kind_invariant]

theorem elfAdd_kind_invariant (k : Nat) (f : PPFunction) (s : ELFState) :
    elfAdd (setRelocKinds k f) s = elfAdd f s := by
  unfold elfAdd
  simp only [setRelocKinds]
  simp only [elfRelaStep_kind_invariant]

theorem runAdds_kind_invariant (k : Nat) (fns : List PPFunction) : ∀ s0 : ELFState,
    runAdds elfAdd (fns.map (setRelocKinds k)) s0 = runAdds elfAdd fns s0 := by
  induction fns with
  | nil => intro s0; rfl
  | cons f rest ih =>
    intro s0
    rcases hstep : elfAdd f s0 with ⟨s1, e⟩
    have hstep2 : elfAdd (setRelocKinds k f) s0 = (s1, e) := by
      rw [elfAdd_kind_invariant, hstep]
    rw [List.map_cons, runAdds_cons _ _ _ _ _ _ hstep2, runAdds_cons _ _ _ _ _ _ hstep]
    cases e with
    | none => exact ih s1
    | some err => rfl

/-! ### Text-writer lemmas -/

theorem runAdds_addF_success (w : AssemblyWriter) (fns : List PPFunction) :
    ∀ c0 c : String, runAdds w.addF fns c0 = (c, none) →
      c = c0 ++ joinBlocks w.assembly_format fns := by
  induction fns with
  | nil =>
    intro c0 c h
    simp only [runAdds, Prod.mk.injEq] at h
    rw [← h.1, joinBlocks, String.append_empty]
  | cons f rest ih =>
    intro c0 c h
    rcases hstep : w.addF f c0 with ⟨c1, e⟩
    rw [runAdds_cons _ _ _ _ _ _ hstep] at h
    cases e with
    | some err => simp at h
    | none =>
      cases hb : f.abi_bound with
      | false => simp [AssemblyWriter.addF, hb] at hstep
      | true =>
        simp only [AssemblyWriter.addF, hb, if_true] at hstep
        injection hstep with h1 h2
        rw [ih c1 c h, ← h1, joinBlocks, String.append_assoc]

theorem bodyRun_none {σ : Type} (step : PPFunction → σ → σ × Option Err)
    (fns : List PPFunction) (s0 s : σ) (ext : Option Err)
    (h : bodyRun step fns s0 ext = (s, none)) :
    runAdds step fns s0 = (s, none) ∧ ext = none := by
  unfold bodyRun at h
  rcases hr : runAdds step fns s0 with ⟨s1, e⟩
  rw [hr] at h
  cases e with
  | some err => simp at h
  | none =>
    injection h with h1 h2
    subst h1
    exact ⟨rfl, h2⟩



/-! ## Claim theorems -/

/-- C1: for every writer session (text or binary), if an error propagates
out of the session body then after the close logic runs the output path
does not exist and the original error still propagates; if no error
propagates, the output file exists and contains the complete serialized
artifact — the serialization of the full in-memory image for the binary
writers (for any serialization function), and the header followed by all
function blocks for the text writer. -/
theorem c1_session_all_or_nothing (w : AssemblyWriter) (fns : List PPFunction)
    (extErr : Option Err) (serE : ELFState → List Nat) (serM : MachOState → List Nat)
    (serC : MSCOFFState → List Nat) :
    (∀ c e, bodyRun w.addF fns w.output_header extErr = (c, some e) →
        assemblySession w fns extErr =
          ⟨some e, none, .dropped, [.unlinkFile, .dropHandleRef]⟩) ∧
    (∀ c, bodyRun w.addF fns w.output_header extErr = (c, none) →
        assemblySession w fns extErr =
          ⟨none, some (w.output_header ++ joinBlocks w.assembly_format fns),
            .closed, [.closeHandle]⟩) ∧
    (∀ s e, bodyRun elfAdd fns ELFWriter.initState extErr = (s, some e) →
        elfSession fns extErr serE =
          ⟨some e, none, .dropped, [.unlinkFile, .dropHandleRef]⟩) ∧
    (∀ s, bodyRun elfAdd fns ELFWriter.initState extErr = (s, none) →
        elfSession fns extErr serE = ⟨none, some (serE s), .closed, [.writeImage, .closeHandle]⟩) ∧
    (∀ s e, bodyRun machoAdd fns MachOWriter.initState extErr = (s, some e) →
        machoSession fns extErr serM =
          ⟨some e, none, .dropped, [.unlinkFile, .dropHandleRef]⟩) ∧
    (∀ s, bodyRun machoAdd fns MachOWriter.initState extErr = (s, none) →
        machoSession fns extErr serM =
          ⟨none, some (serM s), .closed, [.writeImage, .closeHandle]⟩) ∧
    (∀ s e, bodyRun mscoffAdd fns MSCOFFWriter.initState extErr = (s, some e) →
        mscoffSession fns extErr serC =
          ⟨some e, none, .dropped, [.unlinkFile, .dropHandleRef]⟩) ∧
    (∀ s, bodyRun mscoffAdd fns MSCOFFWriter.initState extErr = (s, none) →
        mscoffSession fns extErr serC =
          ⟨none, some (serC s), .closed, [.writeImage, .closeHandle]⟩) := by
  refine ⟨?_, ?_, ?_, ?_, ?_, ?_, ?_, ?_⟩
  · intro c e h
    simp only [assemblySession]
    rw [h]
    rfl
  · intro c h
    obtain ⟨hr, -⟩ := bodyRun_none _ _ _ _ _ h
    have hc := runAdds_addF_success w fns _ _ hr
    simp only [assemblySession]
    rw [h, ← hc]
    rfl
  · intro s e h
    simp only [elfSession]
    rw [h]
    rfl
  · intro s h
    simp only [elfSession]
    rw [h]
    rfl
  · intro s e h
    simp only [machoSession]
    rw [h]
    rfl
  · intro s h
    simp only [machoSession]
    rw [h]
    rfl
  · intro s e h
    simp only [mscoffSession]
    rw [h]
    rfl
  · intro s h
    simp only [mscoffSession]
    rw [h]
    rfl

/-- Witness for C1: concrete successful sessions (a text session over one
function and an ELF session over the §8 scenario) produce exactly the
header-plus-blocks listing, resp. the serialized final image. -/
theorem c1_session_all_or_nothing_witness :
    assemblySession wGas [exF] none =
      ⟨none, some (wGas.output_header ++ joinBlocks wGas.assembly_format [exF]),
        .closed, [.closeHandle]⟩ ∧
    elfSession [exF, exG] none (fun s => s.text_content) =
      ⟨none, some ((runAdds elfAdd [exF, exG] ELFWriter.initState).1.text_content),
        .closed, [.writeImage, .closeHandle]⟩ ∧
    assemblySession wGas [exU] none =
      ⟨some (.assertionError abiMsg), none, .dropped, [.unlinkFile, .dropHandleRef]⟩ := by
  refine ⟨?_, ?_, ?_⟩
  · exact (c1_session_all_or_nothing wGas [exF] none (fun s => s.text_content)
      (fun s => s.text_content) (fun s => s.text_content)).2.1 _ rfl
  · exact (c1_session_all_or_nothing wGas [exF, exG] none (fun s => s.text_content)
      (fun s => s.text_content) (fun s => s.text_content)).2.2.2.1 _ rfl
  · exact (c1_session_all_or_nothing wGas [exU] none (fun s => s.text_content)
      (fun s => s.text_content) (fun s => s.text_content)).1 _ _ rfl

/-- C2: for every writer kind and every previously active writer `p`
(possibly none), entering a session and later exiting it restores `p` as
the active writer, whatever the body outcome and even when the close step
itself fails; with two nested sessions, closing the inner one restores the
outer writer's installed value and closing the outer one restores `p`. -/
theorem c2_nesting_restores_previous (k1 k2 : WriterKind) (w1 w2 : Nat) (p : Option Nat)
    (exc1 exc2 closeErr1 closeErr2 : Option Err) :
    (writerExit (writerEnter k1 w1 false p).1 exc1 closeErr1).1 = p ∧
    (writerEnter k1 w1 false p).2.1 = installValue k1 w1 ∧
    (writerExit (writerEnter k2 w2 false (writerEnter k1 w1 false p).2.1).1
        exc2 closeErr2).1 = installValue k1 w1 ∧
    (writerExit (writerEnter k1 w1 false p).1 exc1 closeErr1).1 = p := by
  cases k1 <;> cases k2 <;>
    simp [writerEnter, enterInstall, writerExit, installValue]

theorem claimedValueSize_length (fns : List PPFunction) :
    (claimedValueSize fns).length = fns.length := by
  simp [claimedValueSize]

theorem elfGlobalsFrom_type (fns : List PPFunction) : ∀ (base : Nat) (y : ELFSymbol),
    y ∈ elfGlobalsFrom base fns → y.type = SymbolType.function := by
  induction fns with
  | nil => intro base y h; simp [elfGlobalsFrom] at h
  | cons f rest ih =>
    intro base y h
    simp only [elfGlobalsFrom, List.mem_cons] at h
    rcases h with rfl | h
    · rfl
    · exact ih _ y h

/-- C3 counterexample: the claim asserts every global function symbol of
an ELF, COFF or Mach-O session carries `size` equal to its own code
length, but the Mach-O and COFF writers never assign any size: after
adding the 16-byte function `f`, the single COFF symbol and the single
Mach-O symbol have no recorded size (so not the claimed `some 16`). -/
theorem c3_counterexample_no_size_recorded :
    (runAdds mscoffAdd [exF] MSCOFFWriter.initState).2 = none ∧
    (runAdds mscoffAdd [exF] MSCOFFWriter.initState).1.symbols.map (fun y => y.1.size) =
      [none] ∧
    (runAdds machoAdd [exF] MachOWriter.initState).2 = none ∧
    (runAdds machoAdd [exF] MachOWriter.initState).1.symbols.map (fun y => y.size) =
      [none] ∧
    exF.encoded.code_content.length = 16 ∧
    (none : Option Nat) ≠ some 16 := by
  refine ⟨rfl, rfl, rfl, rfl, by decide, by decide⟩

/-- C3 (amended): for every sequence of N functions successfully added to
an ELF, Mach-O or COFF writer session, the symbol table contains exactly
N global function symbols whose i-th value is the sum of the code lengths
of the previously added functions; the ELF writer additionally records the
i-th symbol's size (its `content_size` attribute) as function i's own
code length, while the Mach-O and COFF writers record no size at all. -/
theorem c3_symbol_values_and_sizes (fns : List PPFunction)
    (sE : ELFState) (sM : MachOState) (sC : MSCOFFState)
    (hE : runAdds elfAdd fns ELFWriter.initState = (sE, none))
    (hM : runAdds machoAdd fns MachOWriter.initState = (sM, none))
    (hC : runAdds mscoffAdd fns MSCOFFWriter.initState = (sC, none)) :
    (sE.symtab.filter isGlobalFun).length = fns.length ∧
    (sE.symtab.filter isGlobalFun).map (fun y => (y.value, y.content_size)) =
      (claimedValueSize fns).map (fun p => (p.1, some p.2)) ∧
    (∀ y ∈ sE.symtab.filter isGlobalFun, y.type = SymbolType.function) ∧
    sM.symbols.length = fns.length ∧
    sM.symbols.map machoProj =
      (claimedValueSize fns).map (fun p => (p.1, none, MachOVisibility.External)) ∧
    sC.symbols.length = fns.length ∧
    sC.symbols.map mscoffProj =
      (claimedValueSize fns).map
        (fun p => (p.1, none, COFFStorageClass.external, COFFSymbolType.function)) := by
  obtain ⟨-, -, -, -, -, -, hsym⟩ := elf_run_spec fns _ _ hE
  obtain ⟨-, hsymM⟩ := macho_run_spec fns _ _ hM
  obtain ⟨-, hsymC⟩ := mscoff_run_spec fns _ _ hC
  have hEfilter : sE.symtab.filter isGlobalFun = elfGlobalsFrom 0 fns := by
    rw [hsym]; rfl
  have hEmap : (sE.symtab.filter isGlobalFun).map (fun y => (y.value, y.content_size)) =
      (claimedValueSize fns).map (fun p => (p.1, some p.2)) := by
    rw [hEfilter, elfGlobalsFrom_map, claimedValueSize_eq_from]
  refine ⟨?_, hEmap, ?_, ?_, ?_, ?_, ?_⟩
  · have := congrArg List.length hEmap
    simpa [claimedValueSize_length] using this
  · intro y hy
    rw [hEfilter] at hy
    exact elfGlobalsFrom_type fns 0 y hy
  · have hm : sM.symbols.map machoProj =
        (claimedValueSize fns).map (fun p => (p.1, none, MachOVisibility.External)) := by
      rw [hsymM, claimedValueSize_eq_from]; rfl
    have := congrArg List.length hm
    simpa [claimedValueSize_length, machoProj] using this
  · rw [hsymM, claimedValueSize_eq_from]; rfl
  · have hc : sC.symbols.map mscoffProj =
        (claimedValueSize fns).map
          (fun p => (p.1, none, COFFStorageClass.external, COFFSymbolType.function)) := by
      rw [hsymC, claimedValueSize_eq_from]; rfl
    have := congrArg List.length hc
    simpa [claimedValueSize_length, mscoffProj] using this
  · rw [hsymC, claimedValueSize_eq_from]; rfl

/-- Witness for C3: on the §8 scenario `[f, g]`, the ELF writer's global
function symbols carry values 0 and 16 with content sizes 16 and 8. -/
theorem c3_symbol_values_and_sizes_witness :
    ((runAdds elfAdd [exF, exG] ELFWriter.initState).1.symtab.filter isGlobalFun).map
        (fun y => (y.value, y.content_size)) =
      (claimedValueSize [exF, exG]).map (fun p => (p.1, some p.2)) ∧
    (claimedValueSize [exF, exG]).map (fun p => (p.1, some p.2)) = [(0, some 16), (16, some 8)] := by
  refine ⟨(c3_symbol_values_and_sizes [exF, exG] _ _ _ rfl rfl rfl).2.1, by decide⟩

/-- C4: the claim requires each relocation to be placed at
`code_offset + offset`; the code instead passes the function-local
`relocation.offset` unshifted.  On the §8 scenario (16-byte `f`, then `g`
with one relocation at local offset 2 referencing `g_const`), the emitted
relocation sits at text offset 2 — the spec's own scenario expects
16 + 2 = 18 — while the referenced symbol is indeed the `g_const`
registered by the same call.  The symbol-table layout of the scenario is
otherwise as specified. -/
theorem c4_relocation_offset_not_shifted :
    (runAdds elfAdd [exF, exG] ELFWriter.initState).2 = none ∧
    ((runAdds elfAdd [exF, exG] ELFWriter.initState).1.text_rela.getD []).map
        (fun r => (r.offset, r.symbol.name, r.symbol.value, r.symbol.size)) =
      [(2, "g_const", 0, some 4)] ∧
    (runAdds elfAdd [exF, exG] ELFWriter.initState).1.symtab.map
        (fun y => (y.name, y.value, y.content_size)) =
      [("f", 0, some 16), ("g_const", 0, none), ("g", 16, some 8)] ∧
    (runAdds elfAdd [exF, exG] ELFWriter.initState).1.rodata = some [1, 2, 3, 4] ∧
    (2 : Nat) ≠ 16 + 2 := by
  refine ⟨rfl, rfl, rfl, rfl, by decide⟩

/-- C5 counterexample: the claim asserts that in every binary writer
session the read-only-data section is present after the session when at
least one added function supplied constant data; a COFF session that adds
`g` (which carries 4 bytes of constant data) still ends with only the
text section — the constant data is ignored and no rodata section is ever
created (likewise for Mach-O). -/
theorem c5_counterexample_coff_ignores_constants :
    (runAdds mscoffAdd [exG] MSCOFFWriter.initState).2 = none ∧
    exG.encoded.const_content ≠ [] ∧
    (runAdds mscoffAdd [exG] MSCOFFWriter.initState).1.sections = [SectionKind.text] ∧
    SectionKind.rodata ∉ (runAdds mscoffAdd [exG] MSCOFFWriter.initState).1.sections ∧
    (runAdds machoAdd [exG] MachOWriter.initState).1.sections = [SectionKind.text] := by
  refine ⟨rfl, by decide, rfl, by decide, rfl⟩

/-- C5 (amended): within every ELF writer session the read-only-data
section and the relocation table are each created at most once — the
rodata section is registered exactly once when some added function
supplies constant data and never otherwise (and then holds the
concatenation of all functions' constant bytes), and the relocation
section exactly once when some added function supplies relocations; the
Mach-O and COFF writers never create either section, so for them the
rodata section is absent even when added functions supply constant
data. -/
theorem c5_lazy_once_sections (fns : List PPFunction) (sE : ELFState)
    (hE : runAdds elfAdd fns ELFWriter.initState = (sE, none)) :
    sE.sections.count SectionKind.rodata = (if anyConst fns then 1 else 0) ∧
    sE.rodata.isSome = anyConst fns ∧
    sE.rodata.getD [] = concatConst fns ∧
    sE.sections.count SectionKind.relaText = (if anyRelocs fns then 1 else 0) ∧
    sE.text_rela.isSome = anyRelocs fns ∧
    (∀ s0 : MachOState, (runAdds machoAdd fns s0).1.sections = s0.sections) ∧
    (∀ s0 : MSCOFFState, (runAdds mscoffAdd fns s0).1.sections = s0.sections) := by
  obtain ⟨-, hgd, his, hc1, hc2, hri, -⟩ := elf_run_spec fns _ _ hE
  refine ⟨?_, ?_, ?_, ?_, ?_, macho_runAdds_sections fns, mscoff_runAdds_sections fns⟩
  · simpa [ELFWriter.initState] using hc1
  · simpa [ELFWriter.initState] using his
  · simpa [ELFWriter.initState] using hgd
  · simpa [ELFWriter.initState] using hc2
  · simpa [ELFWriter.initState] using hri

/-- Witness for C5: on the §8 scenario the ELF image has exactly one
rodata section holding `g`'s 4 constant bytes and one relocation
section. -/
theorem c5_lazy_once_sections_witness :
    (runAdds elfAdd [exF, exG] ELFWriter.initState).1.sections.count SectionKind.rodata =
      (if anyConst [exF, exG] then 1 else 0) ∧
    (runAdds elfAdd [exF, exG] ELFWriter.initState).1.rodata.getD [] =
      concatConst [exF, exG] ∧
    (runAdds elfAdd [exF, exG] ELFWriter.initState).1.sections.count SectionKind.relaText =
      (if anyRelocs [exF, exG] then 1 else 0) := by
  obtain ⟨h1, -, h3, h4, -⟩ := c5_lazy_once_sections [exF, exG] _ rfl
  exact ⟨h1, h3, h4⟩

/-- C10: every relocation entry the ELF writer emits has relocation type
`x86_64_pc32` and addend `-4`, whatever the input; the generic relocation
kind carried by the encoded function is never read — overwriting every
kind with an arbitrary value leaves the whole run unchanged. -/
theorem c10_relocation_type_and_addend_fixed (fns : List PPFunction) (k : Nat) :
    (∀ r ∈ (runAdds elfAdd fns ELFWriter.initState).1.text_rela.getD [],
        r.type = RelocationType.x86_64_pc32 ∧ r.addend = -4) ∧
    runAdds elfAdd (fns.map (setRelocKinds k)) ELFWriter.initState =
      runAdds elfAdd fns ELFWriter.initState := by
  constructor
  · exact relaInv_runAdds fns ELFWriter.initState (by intro r hr; simp [ELFWriter.initState] at hr)
  · exact runAdds_kind_invariant k fns _

/-- Witness for C10: the concrete relocation emitted on the §8 scenario
has the fixed type and addend, and rewriting `g`'s relocation kind from 7
to 99 leaves the ELF run unchanged. -/
theorem c10_relocation_type_and_addend_fixed_witness :
    ({ type := RelocationType.x86_64_pc32, offset := 2,
       symbol := { name := "g_const", value := 0, size := some 4,
                   section_ := SectionRef.rodataRef, binding := SymbolBinding.local_,
                   type := SymbolType.data_object },
       addend := -4 } : RelocationWithAddend).type = RelocationType.x86_64_pc32 ∧
    ({ type := RelocationType.x86_64_pc32, offset := 2,
       symbol := { name := "g_const", value := 0, size := some 4,
                   section_ := SectionRef.rodataRef, binding := SymbolBinding.local_,
                   type := SymbolType.data_object },
       addend := -4 } : RelocationWithAddend).addend = -4 ∧
    runAdds elfAdd ([exF, exG].map (setRelocKinds 99)) ELFWriter.initState =
      runAdds elfAdd [exF, exG] ELFWriter.initState := by
  refine ⟨?_, ?_, (c10_relocation_type_and_addend_fixed [exF, exG] 99).2⟩
  · exact ((c10_relocation_type_and_addend_fixed [exF, exG] 99).1 _ (by decide)).1
  · exact ((c10_relocation_type_and_addend_fixed [exF, exG] 99).1 _ (by decide)).2

theorem exit_disposition_text (c : String) (e : Option Err) :
    ((textExit c e).propagated = none →
      (textExit c e).handle = HandleState.closed ∧
      (textExit c e).events = [FileEvent.closeHandle]) ∧
    ((textExit c e).propagated ≠ none →
      (textExit c e).handle = HandleState.dropped ∧
      (textExit c e).events = [FileEvent.unlinkFile, FileEvent.dropHandleRef] ∧
      FileEvent.closeHandle ∉ (textExit c e).events ∧
      (textExit c e).file = none) := by
  cases e <;> simp [textExit]

theorem exit_disposition_binary (b : List Nat) (e : Option Err) :
    ((binaryExit b e).propagated = none →
      (binaryExit b e).handle = HandleState.closed ∧
      (binaryExit b e).events = [FileEvent.writeImage, FileEvent.closeHandle]) ∧
    ((binaryExit b e).propagated ≠ none →
      (binaryExit b e).handle = HandleState.dropped ∧
      (binaryExit b e).events = [FileEvent.unlinkFile, FileEvent.dropHandleRef] ∧
      FileEvent.closeHandle ∉ (binaryExit b e).events ∧
      (binaryExit b e).file = none) := by
  cases e <;> simp [binaryExit]

/-- C6 counterexample: the claim asserts the handle is closed on every
exit path, but the error path of `__exit__` only unlinks the file and
overwrites `self.output_file` with `None`, never calling `close()`: a
session aborted by a precondition failure ends with the handle dropped,
not closed, and no close action in its exit trace (text and ELF alike). -/
theorem c6_counterexample_error_path_never_closes :
    (assemblySession wGas [exU] none).propagated ≠ none ∧
    (assemblySession wGas [exU] none).handle = HandleState.dropped ∧
    HandleState.dropped ≠ HandleState.closed ∧
    FileEvent.closeHandle ∉ (assemblySession wGas [exU] none).events ∧
    (elfSession [exU] none (fun s => s.text_content)).handle = HandleState.dropped := by
  refine ⟨by decide, rfl, by decide, by decide, rfl⟩

/-- C6 (amended): for every writer session, on normal completion the
handle is explicitly closed after the artifact bytes are fully written
(binary exit trace: write, then close); on error exit the output file is
deleted and the writer's reference to the handle is discarded without an
explicit close call, so no exit path leaves the writer holding an open
handle, but the error path performs no close. -/
theorem c6_handle_disposition (w : AssemblyWriter) (fns : List PPFunction)
    (extErr : Option Err) (serE : ELFState → List Nat) (serM : MachOState → List Nat)
    (serC : MSCOFFState → List Nat) :
    ((assemblySession w fns extErr).propagated = none →
      (assemblySession w fns extErr).handle = HandleState.closed ∧
      (assemblySession w fns extErr).events = [FileEvent.closeHandle]) ∧
    ((assemblySession w fns extErr).propagated ≠ none →
      (assemblySession w fns extErr).handle = HandleState.dropped ∧
      (assemblySession w fns extErr).events = [FileEvent.unlinkFile, FileEvent.dropHandleRef] ∧
      FileEvent.closeHandle ∉ (assemblySession w fns extErr).events ∧
      (assemblySession w fns extErr).file = none) ∧
    ((elfSession fns extErr serE).propagated = none →
      (elfSession fns extErr serE).handle = HandleState.closed ∧
      (elfSession fns extErr serE).events = [FileEvent.writeImage, FileEvent.closeHandle]) ∧
    ((elfSession fns extErr serE).propagated ≠ none →
      (elfSession fns extErr serE).handle = HandleState.dropped ∧
      (elfSession fns extErr serE).events = [FileEvent.unlinkFile, FileEvent.dropHandleRef] ∧
      FileEvent.closeHandle ∉ (elfSession fns extErr serE).events ∧
      (elfSession fns extErr serE).file = none) ∧
    ((machoSession fns extErr serM).propagated = none →
      (machoSession fns extErr serM).handle = HandleState.closed ∧
      (machoSession fns extErr serM).events = [FileEvent.writeImage, FileEvent.closeHandle]) ∧
    ((machoSession fns extErr serM).propagated ≠ none →
      (machoSession fns extErr serM).handle = HandleState.dropped ∧
      (machoSession fns extErr serM).events = [FileEvent.unlinkFile, FileEvent.dropHandleRef] ∧
      FileEvent.closeHandle ∉ (machoSession fns extErr serM).events ∧
      (machoSession fns extErr serM).file = none) ∧
    ((mscoffSession fns extErr serC).propagated = none →
      (mscoffSession fns extErr serC).handle = HandleState.closed ∧
      (mscoffSession fns extErr serC).events = [FileEvent.writeImage, FileEvent.closeHandle]) ∧
    ((mscoffSession fns extErr serC).propagated ≠ none →
      (mscoffSession fns extErr serC).handle = HandleState.dropped ∧
      (mscoffSession fns extErr serC).events = [FileEvent.unlinkFile, FileEvent.dropHandleRef] ∧
      FileEvent.closeHandle ∉ (mscoffSession fns extErr serC).events ∧
      (mscoffSession fns extErr serC).file = none) := by
  refine ⟨?_, ?_, ?_, ?_, ?_, ?_, ?_, ?_⟩
  · simp only [assemblySession]; exact (exit_disposition_text _ _).1
  · simp only [assemblySession]; exact (exit_disposition_text _ _).2
  · simp only [elfSession]; exact (exit_disposition_binary _ _).1
  · simp only [elfSession]; exact (exit_disposition_binary _ _).2
  · simp only [machoSession]; exact (exit_disposition_binary _ _).1
  · simp only [machoSession]; exact (exit_disposition_binary _ _).2
  · simp only [mscoffSession]; exact (exit_disposition_binary _ _).1
  · simp only [mscoffSession]; exact (exit_disposition_binary _ _).2

/-- Witness for C6: a successful ELF session ends with the handle closed
after the image write; the aborted text session from the counterexample
input ends with the handle dropped and the file gone. -/
theorem c6_handle_disposition_witness :
    ((elfSession [exF, exG] none (fun s => s.text_content)).handle = HandleState.closed ∧
      (elfSession [exF, exG] none (fun s => s.text_content)).events =
        [FileEvent.writeImage, FileEvent.closeHandle]) ∧
    ((assemblySession wGas [exU] none).handle = HandleState.dropped ∧
      (assemblySession wGas [exU] none).events =
        [FileEvent.unlinkFile, FileEvent.dropHandleRef] ∧
      FileEvent.closeHandle ∉ (assemblySession wGas [exU] none).events ∧
      (assemblySession wGas [exU] none).file = none) := by
  constructor
  · exact (c6_handle_disposition wGas [exF, exG] none (fun s => s.text_content)
      (fun s => s.text_content) (fun s => s.text_content)).2.2.1 rfl
  · exact (c6_handle_disposition wGas [exU] none (fun s => s.text_content)
      (fun s => s.text_content) (fun s => s.text_content)).2.1 (by decide)

theorem elfRelocLoop_not_precond (sm : List (String × ELFSymbol))
    (rels : List CodeRelocation) :
    ∀ acc, isPrecondErr (elfRelocLoop sm rels acc).2 = false := by
  induction rels with
  | nil => intro acc; rfl
  | cons rel rest ih =>
    intro acc
    simp only [elfRelocLoop]
    rcases hl : sm.lookup rel.symbol with _ | sym
    · simp only [hl]; rfl
    · simp only [hl]; exact ih _

theorem elfRelaStep_not_precond (s : ELFState) (sm : List (String × ELFSymbol))
    (rels : List CodeRelocation) :
    isPrecondErr (elfRelaStep s sm rels).2 = false := by
  cases hc : rels.isEmpty with
  | true => simp [elfRelaStep, hc, isPrecondErr]
  | false =>
    have hsnd : (elfRelaStep s sm rels).2 =
        (elfRelocLoop sm rels
          (match s.text_rela with
            | none => ([], s.sections ++ [SectionKind.relaText])
            | some r => (r, s.sections)).1).2 := by
      simp [elfRelaStep, hc]
    rw [hsnd]
    exact elfRelocLoop_not_precond _ _ _

theorem elfAdd_not_precond_of_bound (g : PPFunction) (s : ELFState)
    (hg : g.abi_bound = true) : isPrecondErr (elfAdd g s).2 = false := by
  simp only [elfAdd]
  rw [if_pos hg]
  split
  · next e heq =>
    dsimp only
    rw [← heq]
    exact elfRelaStep_not_precond _ _ _
  · rfl

/-- C7: for every writer exposing `add_function`, a call on a function
that is not ABI-bound fails with the precondition (assertion) error
before appending anything — the writer state and output content are
returned unchanged — and the error is not caught internally: a session
whose body makes such a call propagates exactly that error (and, per C1,
deletes its output).  A call on an ABI-bound function never raises the
precondition error. -/
theorem c7_abi_precondition (w : AssemblyWriter) (c : String) (f g : PPFunction)
    (sE : ELFState) (sM : MachOState) (sC : MSCOFFState)
    (serE : ELFState → List Nat) (serM : MachOState → List Nat)
    (serC : MSCOFFState → List Nat)
    (hf : f.abi_bound = false) (hg : g.abi_bound = true) :
    w.addF f c = (c, some (.assertionError abiMsg)) ∧
    elfAdd f sE = (sE, some (.assertionError abiMsg)) ∧
    machoAdd f sM = (sM, some (.assertionError abiMsg)) ∧
    mscoffAdd f sC = (sC, some (.assertionError abiMsg)) ∧
    assemblySession w [f] none =
      ⟨some (.assertionError abiMsg), none, .dropped, [.unlinkFile, .dropHandleRef]⟩ ∧
    (elfSession [f] none serE).propagated = some (.assertionError abiMsg) ∧
    (machoSession [f] none serM).propagated = some (.assertionError abiMsg) ∧
    (mscoffSession [f] none serC).propagated = some (.assertionError abiMsg) ∧
    (w.addF g c).2 = none ∧
    (machoAdd g sM).2 = none ∧
    (mscoffAdd g sC).2 = none ∧
    isPrecondErr (elfAdd g sE).2 = false := by
  have haf : w.addF f c = (c, some (.assertionError abiMsg)) := by
    simp [AssemblyWriter.addF, hf]
  have hbodyT : bodyRun w.addF [f] w.output_header none =
      (w.output_header, some (.assertionError abiMsg)) := by
    have h0 : w.addF f w.output_header = (w.output_header, some (.assertionError abiMsg)) := by
      simp [AssemblyWriter.addF, hf]
    unfold bodyRun
    rw [runAdds_cons _ _ _ _ _ _ h0]
  have hbodyE : bodyRun elfAdd [f] ELFWriter.initState none =
      (ELFWriter.initState, some (.assertionError abiMsg)) := by
    have h0 : elfAdd f ELFWriter.initState =
        (ELFWriter.initState, some (.assertionError abiMsg)) := by
      simp [elfAdd, hf]
    unfold bodyRun
    rw [runAdds_cons _ _ _ _ _ _ h0]
  have hbodyM : bodyRun machoAdd [f] MachOWriter.initState none =
      (MachOWriter.initState, some (.assertionError abiMsg)) := by
    have h0 : machoAdd f MachOWriter.initState =
        (MachOWriter.initState, some (.assertionError abiMsg)) := by
      simp [machoAdd, hf]
    unfold bodyRun
    rw [runAdds_cons _ _ _ _ _ _ h0]
  have hbodyC : bodyRun mscoffAdd [f] MSCOFFWriter.initState none =
      (MSCOFFWriter.initState, some (.assertionError abiMsg)) := by
    have h0 : mscoffAdd f MSCOFFWriter.initState =
        (MSCOFFWriter.initState, some (.assertionError abiMsg)) := by
      simp [mscoffAdd, hf]
    unfold bodyRun
    rw [runAdds_cons _ _ _ _ _ _ h0]
  refine ⟨haf, by simp [elfAdd, hf], by simp [machoAdd, hf], by simp [mscoffAdd, hf],
    ?_, ?_, ?_, ?_,
    by simp [AssemblyWriter.addF, hg], by simp [machoAdd, hg], by simp [mscoffAdd, hg],
    elfAdd_not_precond_of_bound g sE hg⟩
  · simp only [assemblySession]; rw [hbodyT]; rfl
  · simp only [elfSession]; rw [hbodyE]; rfl
  · simp only [machoSession]; rw [hbodyM]; rfl
  · simp only [mscoffSession]; rw [hbodyC]; rfl

/-- Witness for C7: the unbound sample function `u` makes `add_function`
fail with the assertion error leaving the image untouched, the session
propagates it, and the bound sample function `f` raises nothing. -/
theorem c7_abi_precondition_witness :
    elfAdd exU ELFWriter.initState =
      (ELFWriter.initState, some (.assertionError abiMsg)) ∧
    assemblySession wGas [exU] none =
      ⟨some (.assertionError abiMsg), none, .dropped, [.unlinkFile, .dropHandleRef]⟩ ∧
    (wGas.addF exF "").2 = none := by
  obtain ⟨h1, h2, h3, h4, h5, h6, h7, h8, h9, h10, h11, h12⟩ :=
    c7_abi_precondition wGas "" exU exF ELFWriter.initState MachOWriter.initState
      MSCOFFWriter.initState (fun s => s.text_content) (fun s => s.text_content)
      (fun s => s.text_content) rfl rfl
  exact ⟨h2, h5, h9⟩

/-- C8 counterexample: the claim's closed dialect set is
`{go-asm, nasm, masm, gas}`, but the code accepts the token `go`, not
`go-asm`: constructing with `go-asm` fails with the configuration error,
while `go` — outside the claimed set — succeeds with comment prefix
`//`. -/
theorem c8_counterexample_dialect_token :
    AssemblyWriter.init "out.s" "go-asm" none =
      .error (.valueError ("Unknown assembly format: " ++ "go-asm")) ∧
    "go" ∉ ["go-asm", "nasm", "masm", "gas"] ∧
    (AssemblyWriter.init "out.s" "go" none).toOption.map (fun w => w.comment_prefix) =
      some "//" := by
  refine ⟨rfl, by decide, rfl⟩

/-- C8 (amended): constructing the text writer with a dialect outside the
closed set `{go, nasm, masm, gas}` fails with a configuration error
before any file I/O — the whole program ends with no file and the handle
never opened; for the four supported dialects the derived comment prefix
is `//`, `;`, `;`, `#` respectively and the emitted header begins with
that prefix. -/
theorem c8_dialect_set (path fmt : String) (ip : Option String) (fns : List PPFunction)
    (extErr : Option Err) :
    (fmt ∉ ["go", "nasm", "masm", "gas"] →
      assemblyProgram path fmt ip fns extErr =
        ⟨some (.valueError ("Unknown assembly format: " ++ fmt)), none, .notOpened, []⟩) ∧
    (∀ w, AssemblyWriter.init path fmt ip = .ok w →
      fmt ∈ ["go", "nasm", "masm", "gas"] ∧
      (fmt = "go" → w.comment_prefix = "//") ∧
      (fmt = "nasm" → w.comment_prefix = ";") ∧
      (fmt = "masm" → w.comment_prefix = ";") ∧
      (fmt = "gas" → w.comment_prefix = "#") ∧
      ∃ rest, w.output_header = w.comment_prefix ++ rest) := by
  constructor
  · intro hmem
    unfold assemblyProgram AssemblyWriter.init
    rw [if_neg hmem]
  · intro w hw
    simp only [AssemblyWriter.init] at hw
    by_cases hmem : fmt ∈ ["go", "nasm", "masm", "gas"]
    · rw [if_pos hmem] at hw
      injection hw with hw
      subst hw
      refine ⟨hmem, ?_, ?_, ?_, ?_, ?_⟩
      · intro h; subst h; rfl
      · intro h; subst h; rfl
      · intro h; subst h; rfl
      · intro h; subst h; rfl
      · cases ip with
        | none =>
          exact ⟨" Generated by PeachPy " ++ peachpyVersion ++
              (osLinesep ++ ("" ++ (osLinesep ++ ""))),
            by simp only [osJoin, String.append_assoc]⟩
        | some ipath =>
          exact ⟨" Generated by PeachPy " ++ (peachpyVersion ++ (" from " ++ ipath)) ++
              (osLinesep ++ ("" ++ (osLinesep ++ ""))),
            by simp only [osJoin, String.append_assoc]⟩
    · rw [if_neg hmem] at hw
      exact absurd hw (by simp)

/-- Witness for C8: the unsupported dialect `wasm` aborts the whole
program with the configuration error and no file, and the accepted `gas`
writer has comment prefix `#` with a header starting with it. -/
theorem c8_dialect_set_witness :
    assemblyProgram "out.s" "wasm" none [] none =
      ⟨some (.valueError ("Unknown assembly format: " ++ "wasm")), none, .notOpened, []⟩ ∧
    wGas.comment_prefix = "#" ∧
    (∃ rest, wGas.output_header = wGas.comment_prefix ++ rest) := by
  refine ⟨(c8_dialect_set "out.s" "wasm" none [] none).1 (by decide), ?_, ?_⟩
  · exact ((c8_dialect_set "out.s" "gas" none [] none).2 wGas rfl).2.2.2.2.1 rfl
  · exact ((c8_dialect_set "out.s" "gas" none [] none).2 wGas rfl).2.2.2.2.2

/-- C9: every writer's `__enter__` saves the previous active writer and
installs itself (`None` for the null writer) in the active slot before
opening the output file; hence when the open raises, the slot is left
pointing at the new writer and the previous writer is not restored by
that enter. -/
theorem c9_enter_installs_before_open (k : WriterKind) (wid : Nat) (p : Option Nat) :
    enterInstall k wid p = (p, installValue k wid) ∧
    (writerEnter k wid false p).1 = p ∧
    (writerEnter k wid false p).2.1 = installValue k wid ∧
    (k ≠ WriterKind.null →
      writerEnter k wid true p = (p, some wid, some (.ioError "open"))) ∧
    writerEnter WriterKind.null wid true p = (p, none, none) := by
  refine ⟨rfl, ?_, ?_, ?_, rfl⟩
  · cases k <;> rfl
  · cases k <;> rfl
  · intro hk
    cases k with
    | null => exact absurd rfl hk
    | assembly => rfl
    | elf => rfl
    | macho => rfl
    | mscoff => rfl

/-- Witness for C9: an ELF writer entered over previous writer 3 whose
file open fails leaves the slot at the new writer 7, with 3 saved but not
restored. -/
theorem c9_enter_installs_before_open_witness :
    writerEnter WriterKind.elf 7 true (some 3) =
      (some 3, some 7, some (.ioError "open")) :=
  (c9_enter_installs_before_open WriterKind.elf 7 (some 3)).2.2.2.1 (by decide)

end PeachPy
